import Mathlib

/-!
Shallow embedding of `src/pipeline/pipeline_runner.go` (package `pipeline`
of cloudfounders/heka).

Modelling choices:
* `Message` (from the external `heka/message` package) is opaque; we model the
  pack's `*Message` field as `Option Nat`: `none` is the freshly constructed
  empty `Message{}` that has never been filled by a decoder, `some v` is a
  value written by a successful decode.  Only decoders produce `some`.
* Go's `[]byte` buffer is modelled by its length and capacity
  (`MsgBytesLen`, `MsgBytesCap`); `Zero`'s reslice `MsgBytes[:cap(MsgBytes)]`
  sets the length to the capacity.
* The pack's private plugin-instance maps (`Decoders`, `Filters`, `Outputs`)
  hold external plugin code, so they are carried in a separate immutable
  environment `PackEnv` instead of inside the pack structure (the core never
  mutates them; keeping them outside the pack avoids a negative occurrence of
  the pack type in its own fields).  A decoder is a function returning the
  mutated pack and an error flag (`Decode(pack) error`); a filter is a pack
  transformer (`FilterMsg(pack)`); an output instance is opaque, so the map
  only records presence (`Deliver` is observed through the event trace).
* The pack's `Config` back-reference is passed explicitly to the functions
  that read it (`Zero`, `filterProcessor`).
* `map[string]bool` (`OutputNames`) is an association list with map-like
  insertion (`mapInsert` replaces an existing key, so duplicate output names
  in a chain definition collapse exactly as Go map assignment does).
* Side effects (FilterMsg calls, Deliver calls, log lines, the deferred
  recycle) are recorded in an event trace `List Ev`.  A lookup of a filter
  name absent from the pack's filter map yields Go's zero-value (nil)
  interface, and calling `FilterMsg` on it panics: modelled by the
  `filterPanic` event and a Boolean panic flag that aborts the cycle.
  Go runs deferred functions during a panic, so `pipeline` still appends the
  `recycle` event on that path before the panic propagates.
* The recycle channel `make(chan *PipelinePack, config.PoolSize+1)` together
  with the pre-fill loop is modelled as a guarded transition system
  (`poolStep` / `runPool`) over the state (units in the pool, outstanding
  units): a receive (acquire) blocks on an empty channel, a send (release)
  blocks on a full one.
-/

namespace Heka

abbrev Name := String

/-- A named filter chain from the configuration: an ordered list of filter
names plus the output names it targets (`FilterChains` entries). -/
structure FilterChain where
  filters : List Name
  outputs : List Name
deriving DecidableEq

/-- `PluginWrapper`: only the `global` field (the shared `PluginGlobal`
instance, `nil` or not) is read by this file; a non-nil global is identified
by an opaque id. -/
structure PluginWrapper where
  global : Option Nat
deriving DecidableEq

/-- The data fields of `PipelinePack` (plugin-instance maps live in
`PackEnv`, the `Config` back-reference is passed explicitly). -/
structure PipelinePack where
  MsgBytesLen : Nat
  MsgBytesCap : Nat
  Message : Option Nat
  Decoder : Name
  Decoded : Bool
  Blocked : Bool
  FilterChain : Name
  ChainCount : Nat
  OutputNames : List (Name × Bool)
deriving DecidableEq

/-- `Decoder.Decode(pipelinePack) error`: returns the mutated pack and an
error flag (`true` = error returned). -/
def Decoder : Type := PipelinePack → PipelinePack × Bool

/-- `Filter.FilterMsg(pipelinePack)`: mutates the pack. -/
def Filter : Type := PipelinePack → PipelinePack

/-- `PipelineConfig`, restricted to the fields `pipeline_runner.go` reads.
`LocateChain` is `config.Lookup.LocateChain(message) -> (chainName, ok)`.
`Filters`/`Outputs` are the plugin-wrapper registries used by
`BroadcastEvent` (association lists standing for the Go maps). -/
structure PipelineConfig where
  DefaultDecoder : Name
  DefaultFilterChain : Name
  PoolSize : Nat
  FilterChains : Name → Option FilterChain
  LocateChain : Option Nat → Option Name
  Filters : List (Name × PluginWrapper)
  Outputs : List (Name × PluginWrapper)

/-- The pack's private plugin-instance maps, built once by
`InitDecoders`/`InitFilters`/`InitOutputs` and never mutated by the core.
For outputs only presence matters (`Deliver` is observed in the trace). -/
structure PackEnv where
  Decoders : Name → Option Decoder
  Filters : Name → Option Filter
  Outputs : Name → Bool

/-- Control-channel event type `RELOAD = "reload"`. -/
def RELOAD : String := "reload"

/-- Control-channel event type `STOP = "stop"`. -/
def STOP : String := "stop"

/-- Observable events of one pipeline cycle. -/
inductive Ev where
  | filterMsg (name : Name)
  | filterPanic (name : Name)
  | deliver (name : Name)
  | logMissingDecoder (name : Name)
  | logDecodeError (name : Name)
  | logMissingChain (name : Name)
  | logMissingOutput (name : Name)
  | recycle
deriving DecidableEq

/-- How a cycle of the `pipeline` closure ended (the early-`return` sites of
the Go code, plus the nil-filter panic; a missing chain does not return
early from `pipeline`, it just leaves the output set empty). -/
inductive ExitPath where
  | missingDecoder
  | decodeError
  | panicked
  | blocked
  | completed
deriving DecidableEq

/-- Observable events of `BroadcastEvent`. -/
inductive BEv where
  | posted (eventType : String)
  | logPostError
  | event (wrapperName : Name) (eventType : String)
deriving DecidableEq

/-- `NewPipelinePack`: fresh pack with a 65536-byte buffer, empty message,
configured defaults, cleared flags and an empty output-name map. -/
def NewPipelinePack (config : PipelineConfig) : PipelinePack :=
  { MsgBytesLen := 65536
    MsgBytesCap := 65536
    Message := none
    Decoder := config.DefaultDecoder
    Decoded := false
    Blocked := false
    FilterChain := config.DefaultFilterChain
    ChainCount := 0
    OutputNames := [] }

/-- `(*PipelinePack).Zero`: reslice the buffer to full capacity, restore the
default decoder and filter chain, clear `Decoded`/`Blocked`, and delete every
entry of `OutputNames`.  (`Message` and `ChainCount` are not touched.) -/
def PipelinePack.Zero (config : PipelineConfig) (self : PipelinePack) : PipelinePack :=
  { self with
    MsgBytesLen := self.MsgBytesCap
    Decoder := config.DefaultDecoder
    Decoded := false
    Blocked := false
    FilterChain := config.DefaultFilterChain
    OutputNames := [] }

/-- Go map assignment `m[k] = v` on an association list: replace the entry
for `k` if present, otherwise append it. -/
def mapInsert (m : List (Name × Bool)) (k : Name) (v : Bool) : List (Name × Bool) :=
  match m with
  | [] => [(k, v)]
  | (k', v') :: rest =>
    if k' = k then (k, v) :: rest else (k', v') :: mapInsert rest k v

/-- Lines 123-128 of `filterProcessor`: ask `LocateChain` for a chain name;
on a match store it in the pack's `FilterChain` field, otherwise keep the
pack's current `FilterChain` as the resolved name.  Returns (resolved name,
updated pack). -/
def locateStep (config : PipelineConfig) (p : PipelinePack) : Name × PipelinePack :=
  match config.LocateChain p.Message with
  | some n => (n, { p with FilterChain := n })
  | none => (p.FilterChain, p)

/-- The filter loop of `filterProcessor`: look each filter name up in the
pack's private filter map (unguarded: a missing name is Go's nil interface
and calling `FilterMsg` on it panics, flag `true`), invoke it, and stop as
soon as the pack is `Blocked`. -/
def runFilters (env : PackEnv) : List Name → PipelinePack → PipelinePack × List Ev × Bool
  | [], p => (p, [], false)
  | filterName :: rest, p =>
    match env.Filters filterName with
    | none => (p, [Ev.filterPanic filterName], true)
    | some f =>
      if (f p).Blocked then ((f p), [Ev.filterMsg filterName], false)
      else
        ((runFilters env rest (f p)).1,
         Ev.filterMsg filterName :: (runFilters env rest (f p)).2.1,
         (runFilters env rest (f p)).2.2)

/-- `filterProcessor`: replace `OutputNames` with a fresh empty map, resolve
the chain name (`locateStep`), look the chain up in `config.FilterChains`
(absent: log and return), mark the chain's outputs in `OutputNames`, then run
the chain's filters.  Returns (pack, trace, panicked). -/
def filterProcessor (config : PipelineConfig) (env : PackEnv) (pack : PipelinePack) :
    PipelinePack × List Ev × Bool :=
  let p1 : PipelinePack := { pack with OutputNames := [] }
  let chainName : Name := (locateStep config p1).1
  let p2 : PipelinePack := (locateStep config p1).2
  match config.FilterChains chainName with
  | none => (p2, [Ev.logMissingChain chainName], false)
  | some chain =>
    runFilters env chain.filters
      { p2 with OutputNames := chain.outputs.foldl (fun m n => mapInsert m n true) [] }

/-- The delivery loop of `pipeline` (lines 205-215): for every selected
output name, skip `false` entries, log a missing output instance and
continue, otherwise invoke `Deliver`. -/
def deliverOutputs (env : PackEnv) : List (Name × Bool) → List Ev
  | [] => []
  | (outputName, use) :: rest =>
    if use = false then deliverOutputs env rest
    else if env.Outputs outputName then Ev.deliver outputName :: deliverOutputs env rest
    else Ev.logMissingOutput outputName :: deliverOutputs env rest

/-- The decode step of `pipeline` (lines 182-196): if the pack is not yet
decoded, look up the selected decoder (absent: log, abort), invoke it
(error: log, abort), on success set `Decoded := true`.  The third component
is `some exit` on an aborting path and `none` when the cycle continues. -/
def decodeStage (env : PackEnv) (pack : PipelinePack) :
    PipelinePack × List Ev × Option ExitPath :=
  if pack.Decoded then (pack, [], none)
  else
    match env.Decoders pack.Decoder with
    | none => (pack, [Ev.logMissingDecoder pack.Decoder], some ExitPath.missingDecoder)
    | some decoder =>
      if (decoder pack).2 then
        ((decoder pack).1, [Ev.logDecodeError pack.Decoder], some ExitPath.decodeError)
      else ({ (decoder pack).1 with Decoded := true }, [], none)

/-- Lines 200-215 of `pipeline`: after `filterProcessor`, return at once if
the pack is `Blocked`, otherwise run the delivery loop. -/
def afterFilter (env : PackEnv) (pack : PipelinePack) : List Ev × ExitPath :=
  if pack.Blocked then ([], ExitPath.blocked)
  else (deliverOutputs env pack.OutputNames, ExitPath.completed)

/-- The body of the `pipeline` closure without its `defer`: decode,
filter-process, deliver; result is (pack at the return point, trace, exit
path). -/
def pipelineBody (config : PipelineConfig) (env : PackEnv) (pack : PipelinePack) :
    PipelinePack × List Ev × ExitPath :=
  let d := decodeStage env pack
  match d.2.2 with
  | some exit => (d.1, d.2.1, exit)
  | none =>
    let fp := filterProcessor config env d.1
    if fp.2.2 then (fp.1, d.2.1 ++ fp.2.1, ExitPath.panicked)
    else
      (fp.1,
       d.2.1 ++ fp.2.1 ++ (afterFilter env fp.1).1,
       (afterFilter env fp.1).2)

/-- The `pipeline` closure of `Run`: its body wrapped in the deferred
finalizer `pack.Zero(); recycleChan <- pack`, which runs on every exit path
(deferred functions also run during a panic). -/
def pipeline (config : PipelineConfig) (env : PackEnv) (pack : PipelinePack) :
    PipelinePack × List Ev × ExitPath :=
  ((pipelineBody config env pack).1.Zero config,
   (pipelineBody config env pack).2.1 ++ [Ev.recycle],
   (pipelineBody config env pack).2.2)

/-- The two wrapper loops of `BroadcastEvent`: call `wrapper.global.Event`
on every wrapper whose `global` is non-nil. -/
def notifyWrappers (ws : List (Name × PluginWrapper)) (eventType : String) : List BEv :=
  ws.filterMap fun nw =>
    if nw.2.global.isSome then some (BEv.event nw.1 eventType) else none

/-- `BroadcastEvent`: `notify.Post` first (a failure, `postErr = true`, is
only logged), then notify every filter wrapper and every output wrapper with
a non-nil global instance. -/
def BroadcastEvent (config : PipelineConfig) (eventType : String) (postErr : Bool) :
    List BEv :=
  (if postErr then [BEv.logPostError] else [BEv.posted eventType])
    ++ notifyWrappers config.Filters eventType
    ++ notifyWrappers config.Outputs eventType

/-- The two operations on the recycle channel. -/
inductive PoolOp where
  | acquire
  | release
deriving DecidableEq

/-- Channel capacity: `make(chan *PipelinePack, config.PoolSize+1)`. -/
def poolCapacity (config : PipelineConfig) : Nat := config.PoolSize + 1

/-- Pool state after the pre-fill loop (lines 219-221): `PoolSize` units in
the channel, none outstanding.  State = (units in pool, outstanding units). -/
def initPool (config : PipelineConfig) : Nat × Nat := (config.PoolSize, 0)

/-- One channel operation.  `acquire` (a receive) is enabled only on a
non-empty channel; `release` (a send by a unit's current owner) is enabled
only when a unit is outstanding and the channel is below capacity.  `none`
means the operation blocks in that state. -/
def poolStep (config : PipelineConfig) : Nat × Nat → PoolOp → Option (Nat × Nat)
  | (inPool, outstanding), PoolOp.acquire =>
    if 0 < inPool then some (inPool - 1, outstanding + 1) else none
  | (inPool, outstanding), PoolOp.release =>
    if 0 < outstanding ∧ inPool < poolCapacity config then
      some (inPool + 1, outstanding - 1)
    else none

/-- Run a sequence of pool operations from a given state; `none` as soon as
one of them blocks. -/
def runPoolFrom (config : PipelineConfig) (s : Nat × Nat) :
    List PoolOp → Option (Nat × Nat)
  | [] => some s
  | op :: rest =>
    match poolStep config s op with
    | none => none
    | some s' => runPoolFrom config s' rest

/-- Run a sequence of pool operations from the pre-filled initial state. -/
def runPool (config : PipelineConfig) (ops : List PoolOp) : Option (Nat × Nat) :=
  runPoolFrom config (initPool config) ops

/-- Concrete configuration whose chain registry is empty ("chain" is the
default chain, `LocateChain` never matches). -/
def cfgNoChains : PipelineConfig :=
  { DefaultDecoder := "dec"
    DefaultFilterChain := "chain"
    PoolSize := 1
    FilterChains := fun _ => none
    LocateChain := fun _ => none
    Filters := []
    Outputs := [] }

/-- Pack environment with no plugin instances at all. -/
def envEmpty : PackEnv :=
  { Decoders := fun _ => none
    Filters := fun _ => none
    Outputs := fun _ => false }

/-- A filter that unconditionally sets `Blocked`. -/
def blockAllFilter : Filter := fun p => { p with Blocked := true }

/-- Pack environment holding only the `"blockall"` filter. -/
def envBlock : PackEnv :=
  { Decoders := fun _ => none
    Filters := fun n => if n = "blockall" then some blockAllFilter else none
    Outputs := fun _ => false }

/-- Pack environment holding only the `"out1"` output instance. -/
def envOut : PackEnv :=
  { Decoders := fun _ => none
    Filters := fun _ => none
    Outputs := fun n => n == "out1" }

/-- A plugin wrapper with a registered global instance. -/
def wrapGlobal : PluginWrapper := { global := some 0 }

/-- Configuration with one filter wrapper carrying a global instance and one
output wrapper without one. -/
def cfgBroadcast : PipelineConfig :=
  { DefaultDecoder := "dec"
    DefaultFilterChain := "chain"
    PoolSize := 1
    FilterChains := fun _ => none
    LocateChain := fun _ => none
    Filters := [("fw", wrapGlobal)]
    Outputs := [("ow", { global := none })] }

/-- A decoder that fills the message field (with value 7) and succeeds. -/
def decSet7 : Decoder := fun p => ({ p with Message := some 7 }, false)

/-- Pack environment holding only the `"dec"` decoder (`decSet7`). -/
def envDec : PackEnv :=
  { Decoders := fun n => if n = "dec" then some decSet7 else none
    Filters := fun _ => none
    Outputs := fun _ => false }

/-- Configuration whose default chain `"default"` names the filter
`"missing"` (absent from every pack environment below) and output "out1". -/
def cfgMissingFilter : PipelineConfig :=
  { DefaultDecoder := "dec"
    DefaultFilterChain := "default"
    PoolSize := 1
    FilterChains := fun n =>
      if n = "default" then some { filters := ["missing"], outputs := ["out1"] }
      else none
    LocateChain := fun _ => none
    Filters := []
    Outputs := [] }

/-- Pack environment for the missing-filter scenario: the decoder and the
output instance exist, the `"missing"` filter instance does not. -/
def envMissingFilter : PackEnv :=
  { Decoders := fun n => if n = "dec" then some decSet7 else none
    Filters := fun _ => none
    Outputs := fun n => n == "out1" }

lemma locateStep_OutputNames (config : PipelineConfig) (p : PipelinePack) :
    (locateStep config p).2.OutputNames = p.OutputNames := by
  unfold locateStep
  cases config.LocateChain p.Message <;> rfl

lemma locateStep_Message (config : PipelineConfig) (p : PipelinePack) :
    (locateStep config p).2.Message = p.Message := by
  unfold locateStep
  cases config.LocateChain p.Message <;> rfl

lemma runFilters_trace_shape (env : PackEnv) (fs : List Name) (p : PipelinePack) :
    ∀ e ∈ (runFilters env fs p).2.1, ∃ n, e = Ev.filterMsg n ∨ e = Ev.filterPanic n := by
  induction fs generalizing p with
  | nil => simp [runFilters]
  | cons fname rest ih =>
    intro e he
    cases h : env.Filters fname with
    | none =>
      simp [runFilters, h] at he
      exact ⟨fname, Or.inr he⟩
    | some f =>
      by_cases hb : (f p).Blocked <;> simp [runFilters, h, hb] at he
      · exact ⟨fname, Or.inl he⟩
      · rcases he with he | he
        · exact ⟨fname, Or.inl he⟩
        · exact ih (f p) e he

lemma deliver_not_mem_runFilters (env : PackEnv) (fs : List Name) (p : PipelinePack)
    (n : Name) : Ev.deliver n ∉ (runFilters env fs p).2.1 := by
  intro h
  rcases runFilters_trace_shape env fs p _ h with ⟨m, hm | hm⟩ <;> cases hm

lemma recycle_not_mem_runFilters (env : PackEnv) (fs : List Name) (p : PipelinePack) :
    Ev.recycle ∉ (runFilters env fs p).2.1 := by
  intro h
  rcases runFilters_trace_shape env fs p _ h with ⟨m, hm | hm⟩ <;> cases hm

lemma decodeStage_trace_shape (env : PackEnv) (p : PipelinePack) :
    (decodeStage env p).2.1 = [] ∨
    (decodeStage env p).2.1 = [Ev.logMissingDecoder p.Decoder] ∨
    (decodeStage env p).2.1 = [Ev.logDecodeError p.Decoder] := by
  unfold decodeStage
  by_cases h : p.Decoded
  · simp [h]
  · cases hd : env.Decoders p.Decoder
    · simp [h, hd]
    · simp only [h, Bool.false_eq_true, ite_false, hd]
      split <;> simp

lemma decodeStage_exit_shape (env : PackEnv) (p : PipelinePack) :
    (decodeStage env p).2.2 = none ∨
    (decodeStage env p).2.2 = some ExitPath.missingDecoder ∨
    (decodeStage env p).2.2 = some ExitPath.decodeError := by
  unfold decodeStage
  by_cases h : p.Decoded
  · simp [h]
  · cases hd : env.Decoders p.Decoder
    · simp [h, hd]
    · simp only [h, Bool.false_eq_true, ite_false, hd]
      split <;> simp

lemma deliverOutputs_trace_shape (env : PackEnv) (ns : List (Name × Bool)) :
    ∀ e ∈ deliverOutputs env ns, ∃ n, e = Ev.deliver n ∨ e = Ev.logMissingOutput n := by
  induction ns with
  | nil => simp [deliverOutputs]
  | cons hd rest ih =>
    intro e he
    rcases hd with ⟨outputName, use⟩
    by_cases hu : use = false
    · simp [deliverOutputs, hu] at he
      exact ih e he
    · by_cases ho : env.Outputs outputName <;> simp [deliverOutputs, hu, ho] at he
      · rcases he with he | he
        · exact ⟨outputName, Or.inl he⟩
        · exact ih e he
      · rcases he with he | he
        · exact ⟨outputName, Or.inr he⟩
        · exact ih e he

lemma recycle_not_mem_deliverOutputs (env : PackEnv) (ns : List (Name × Bool)) :
    Ev.recycle ∉ deliverOutputs env ns := by
  intro h
  rcases deliverOutputs_trace_shape env ns _ h with ⟨m, hm | hm⟩ <;> cases hm

lemma filterProcessor_trace_shape (config : PipelineConfig) (env : PackEnv)
    (p : PipelinePack) :
    ∀ e ∈ (filterProcessor config env p).2.1,
      (∃ n, e = Ev.filterMsg n ∨ e = Ev.filterPanic n ∨ e = Ev.logMissingChain n) := by
  intro e he
  unfold filterProcessor at he
  rcases hc : config.FilterChains (locateStep config { p with OutputNames := [] }).1 with
    _ | chain <;> simp only [hc] at he
  · simp at he
    exact ⟨_, Or.inr (Or.inr he)⟩
  · rcases runFilters_trace_shape env chain.filters _ _ he with ⟨m, hm | hm⟩
    · exact ⟨m, Or.inl hm⟩
    · exact ⟨m, Or.inr (Or.inl hm)⟩

lemma deliver_not_mem_filterProcessor (config : PipelineConfig) (env : PackEnv)
    (p : PipelinePack) (n : Name) :
    Ev.deliver n ∉ (filterProcessor config env p).2.1 := by
  intro h
  rcases filterProcessor_trace_shape config env p _ h with ⟨m, hm | hm | hm⟩ <;> cases hm

lemma recycle_not_mem_filterProcessor (config : PipelineConfig) (env : PackEnv)
    (p : PipelinePack) :
    Ev.recycle ∉ (filterProcessor config env p).2.1 := by
  intro h
  rcases filterProcessor_trace_shape config env p _ h with ⟨m, hm | hm | hm⟩ <;> cases hm

lemma recycle_not_mem_decodeStage (env : PackEnv) (p : PipelinePack) :
    Ev.recycle ∉ (decodeStage env p).2.1 := by
  rcases decodeStage_trace_shape env p with h | h | h <;> simp [h]

lemma deliver_not_mem_decodeStage (env : PackEnv) (p : PipelinePack) (n : Name) :
    Ev.deliver n ∉ (decodeStage env p).2.1 := by
  rcases decodeStage_trace_shape env p with h | h | h <;> simp [h]

lemma recycle_not_mem_afterFilter (env : PackEnv) (p : PipelinePack) :
    Ev.recycle ∉ (afterFilter env p).1 := by
  unfold afterFilter
  by_cases hb : p.Blocked <;> simp [hb]
  exact recycle_not_mem_deliverOutputs env p.OutputNames

lemma recycle_not_mem_pipelineBody (config : PipelineConfig) (env : PackEnv)
    (pack : PipelinePack) :
    Ev.recycle ∉ (pipelineBody config env pack).2.1 := by
  unfold pipelineBody
  cases hd : (decodeStage env pack).2.2 with
  | some exit =>
    simp only [hd]
    exact recycle_not_mem_decodeStage env pack
  | none =>
    simp only [hd]
    by_cases hp : (filterProcessor config env (decodeStage env pack).1).2.2 <;>
      simp only [hp, ite_true, Bool.false_eq_true, ite_false] <;>
      intro h <;> simp only [List.mem_append] at h
    · rcases h with h | h
      · exact recycle_not_mem_decodeStage env pack h
      · exact recycle_not_mem_filterProcessor config env _ h
    · rcases h with (h | h) | h
      · exact recycle_not_mem_decodeStage env pack h
      · exact recycle_not_mem_filterProcessor config env _ h
      · exact recycle_not_mem_afterFilter env _ h

lemma recycle_once (config : PipelineConfig) (env : PackEnv) (pack : PipelinePack) :
    ((pipeline config env pack).2.1).count Ev.recycle = 1 := by
  unfold pipeline
  rw [List.count_append,
    List.count_eq_zero.mpr (recycle_not_mem_pipelineBody config env pack)]
  rfl

lemma runFilters_append (env : PackEnv) (fs1 fs2 : List Name)
    (p q : PipelinePack) (tr1 : List Ev)
    (h1 : runFilters env fs1 p = (q, tr1, false)) (h2 : q.Blocked = false) :
    runFilters env (fs1 ++ fs2) p =
      ((runFilters env fs2 q).1, tr1 ++ (runFilters env fs2 q).2.1,
       (runFilters env fs2 q).2.2) := by
  induction fs1 generalizing p tr1 with
  | nil =>
    simp only [runFilters, Prod.mk.injEq] at h1
    obtain ⟨hq, htr, -⟩ := h1
    subst hq
    subst htr
    simp [runFilters]
  | cons a rest ih =>
    cases hf : env.Filters a with
    | none => simp [runFilters, hf] at h1
    | some f =>
      by_cases hb : (f p).Blocked
      · simp only [runFilters, hf, hb, ite_true, Prod.mk.injEq] at h1
        obtain ⟨hq, -, -⟩ := h1
        rw [hq, h2] at hb
        exact Bool.noConfusion hb
      · simp only [runFilters, hf, hb, Bool.false_eq_true, ite_false,
          Prod.mk.injEq] at h1
        obtain ⟨hq, htr, hpan⟩ := h1
        have hr : runFilters env rest (f p)
            = (q, (runFilters env rest (f p)).2.1, false) := by
          rw [← hq, ← hpan]
        have hrec := ih (f p) ((runFilters env rest (f p)).2.1) hr
        rw [List.cons_append]
        simp only [runFilters, hf, hb, Bool.false_eq_true, ite_false, hrec]
        rw [← htr]
        simp

/-- Claim C1: if the filter at some position of the resolved chain's filter
list sets the pack's `Blocked` flag, the filter loop stops there (the trace
records exactly the filters up to and including the blocking one), a blocked
pack makes the delivery stage return immediately with no delivery events,
and a cycle that exits on the `Blocked` path has no `deliver` event in its
trace. -/
theorem C1_filter_short_circuit (env : PackEnv) (fs1 fs2 : List Name) (f : Name)
    (φ : Filter) (p q : PipelinePack) (tr1 : List Ev)
    (h1 : runFilters env fs1 p = (q, tr1, false))
    (h2 : q.Blocked = false)
    (h3 : env.Filters f = some φ)
    (h4 : (φ q).Blocked = true) :
    runFilters env (fs1 ++ f :: fs2) p = (φ q, tr1 ++ [Ev.filterMsg f], false)
    ∧ (∀ (env' : PackEnv) (r : PipelinePack), r.Blocked = true →
        afterFilter env' r = ([], ExitPath.blocked))
    ∧ (∀ (config : PipelineConfig) (env' : PackEnv) (pk : PipelinePack) (n : Name),
        (pipelineBody config env' pk).2.2 = ExitPath.blocked →
        Ev.deliver n ∉ (pipeline config env' pk).2.1) := by
  refine ⟨?_, ?_, ?_⟩
  · rw [runFilters_append env fs1 (f :: fs2) p q tr1 h1 h2]
    simp [runFilters, h3, h4]
  · intro env' r hb
    unfold afterFilter
    simp [hb]
  · intro config env' pk n hexit hmem
    unfold pipeline at hmem
    simp only [List.mem_append, List.mem_singleton] at hmem
    rcases hmem with hmem | hmem
    · unfold pipelineBody at hexit hmem
      rcases hd : (decodeStage env' pk).2.2 with _ | exit <;>
        simp only [hd] at hexit hmem
      · by_cases hp : (filterProcessor config env' (decodeStage env' pk).1).2.2 = true
        · simp [hp] at hexit
        · simp only [hp, Bool.false_eq_true, ite_false] at hexit hmem
          by_cases hb :
              (filterProcessor config env' (decodeStage env' pk).1).1.Blocked = true
          · simp only [afterFilter, hb, ite_true, List.append_nil,
              List.mem_append] at hmem
            rcases hmem with hmem | hmem
            · exact deliver_not_mem_decodeStage env' pk n hmem
            · exact deliver_not_mem_filterProcessor config env' _ n hmem
          · simp [afterFilter, hb] at hexit
      · rcases decodeStage_exit_shape env' pk with hs | hs | hs <;>
          rw [hd] at hs <;> simp at hs hexit <;> rw [hs] at hexit <;> simp at hexit
    · simp at hmem

/-- Claim C2: the `pipeline` closure's deferred finalizer runs on every exit
path: the cycle's trace contains exactly one `recycle` event, and the
returned pack is the body's final pack reset via `Zero`. -/
theorem C2_unconditional_recycle (config : PipelineConfig) (env : PackEnv)
    (pack : PipelinePack) :
    ((pipeline config env pack).2.1).count Ev.recycle = 1
    ∧ (pipeline config env pack).1
        = PipelinePack.Zero config (pipelineBody config env pack).1 :=
  ⟨recycle_once config env pack, rfl⟩

/-- Claim C3: for every prior pack state, `Zero` clears `Decoded` and
`Blocked`, restores the configured default decoder and filter chain, empties
the output-name set, and restores the buffer length to its full capacity. -/
theorem C3_zero_reset (config : PipelineConfig) (p : PipelinePack) :
    (p.Zero config).Decoded = false
    ∧ (p.Zero config).Blocked = false
    ∧ (p.Zero config).Decoder = config.DefaultDecoder
    ∧ (p.Zero config).FilterChain = config.DefaultFilterChain
    ∧ (p.Zero config).OutputNames = []
    ∧ (p.Zero config).MsgBytesLen = p.MsgBytesCap := by
  simp [PipelinePack.Zero]

/-- Witness for C1: a chain `["blockall", "noop"]` whose first filter blocks
runs only that filter. -/
theorem C1_filter_short_circuit_witness :
    runFilters envBlock ([] ++ "blockall" :: ["noop"]) (NewPipelinePack cfgNoChains)
      = (blockAllFilter (NewPipelinePack cfgNoChains), [] ++ [Ev.filterMsg "blockall"],
         false) :=
  (C1_filter_short_circuit envBlock [] ["noop"] "blockall" blockAllFilter
    (NewPipelinePack cfgNoChains) (NewPipelinePack cfgNoChains) []
    rfl rfl rfl rfl).1

/-- Claim C4: if `LocateChain` reports no match the resolved chain name is
the one already carried in the pack and the pack is unchanged; if it reports
a match, the matched name is the resolved name and overwrites the pack's
`FilterChain` field; `filterProcessor` resolves the chain for the cycle by
looking `config.FilterChains` up at exactly that resolved name. -/
theorem C4_routing_fallback (config : PipelineConfig) (p : PipelinePack) :
    (config.LocateChain p.Message = none →
      locateStep config p = (p.FilterChain, p))
    ∧ (∀ n, config.LocateChain p.Message = some n →
      (locateStep config p).1 = n ∧ (locateStep config p).2.FilterChain = n)
    ∧ (∀ env : PackEnv, filterProcessor config env p =
        match config.FilterChains (locateStep config { p with OutputNames := [] }).1 with
        | none =>
          ((locateStep config { p with OutputNames := [] }).2,
           [Ev.logMissingChain (locateStep config { p with OutputNames := [] }).1],
           false)
        | some chain =>
          runFilters env chain.filters
            { (locateStep config { p with OutputNames := [] }).2 with
              OutputNames := chain.outputs.foldl (fun m n => mapInsert m n true) [] }) := by
  refine ⟨?_, ?_, ?_⟩
  · intro h
    unfold locateStep
    rw [h]
  · intro n h
    unfold locateStep
    rw [h]
    exact ⟨rfl, rfl⟩
  · intro env
    rfl

/-- Witness for C4: with a lookup that never matches, the resolved chain is
the pack's configured one and the pack is untouched. -/
theorem C4_routing_fallback_witness :
    locateStep cfgNoChains (NewPipelinePack cfgNoChains)
      = ((NewPipelinePack cfgNoChains).FilterChain, NewPipelinePack cfgNoChains) :=
  (C4_routing_fallback cfgNoChains (NewPipelinePack cfgNoChains)).1 rfl

/-- Claim C5: when the resolved chain name is absent from the configured
chain definitions, `filterProcessor` logs it and returns with the pack's
output-name set empty and no panic; no filter runs and no delivery event can
arise from the empty set, and the cycle still recycles the pack exactly
once. -/
theorem C5_missing_chain (config : PipelineConfig) (env : PackEnv) (q : PipelinePack)
    (h : config.FilterChains (locateStep config { q with OutputNames := [] }).1 = none) :
    filterProcessor config env q
      = ((locateStep config { q with OutputNames := [] }).2,
         [Ev.logMissingChain (locateStep config { q with OutputNames := [] }).1],
         false)
    ∧ (filterProcessor config env q).1.OutputNames = []
    ∧ deliverOutputs env (filterProcessor config env q).1.OutputNames = []
    ∧ (∀ n, Ev.filterMsg n ∉ (filterProcessor config env q).2.1
        ∧ Ev.deliver n ∉ (filterProcessor config env q).2.1)
    ∧ ((pipeline config env q).2.1).count Ev.recycle = 1 := by
  have h1 : filterProcessor config env q
      = ((locateStep config { q with OutputNames := [] }).2,
         [Ev.logMissingChain (locateStep config { q with OutputNames := [] }).1],
         false) := by
    simp only [filterProcessor, h]
  have h2 : (filterProcessor config env q).1.OutputNames = [] := by
    rw [h1]
    simpa using locateStep_OutputNames config { q with OutputNames := [] }
  refine ⟨h1, h2, ?_, ?_, recycle_once config env q⟩
  · rw [h2]
    rfl
  · intro n
    rw [h1]
    constructor <;> simp

/-- Witness for C5: the empty chain registry makes every cycle hit the
missing-chain path. -/
theorem C5_missing_chain_witness :
    filterProcessor cfgNoChains envEmpty (NewPipelinePack cfgNoChains)
      = ((locateStep cfgNoChains
            { NewPipelinePack cfgNoChains with OutputNames := [] }).2,
         [Ev.logMissingChain (locateStep cfgNoChains
            { NewPipelinePack cfgNoChains with OutputNames := [] }).1],
         false) :=
  (C5_missing_chain cfgNoChains envEmpty (NewPipelinePack cfgNoChains) rfl).1

lemma deliverOutputs_cons_false (env : PackEnv) (n : Name)
    (rest : List (Name × Bool)) :
    deliverOutputs env ((n, false) :: rest) = deliverOutputs env rest := by
  simp [deliverOutputs]

lemma deliverOutputs_cons_present (env : PackEnv) (n : Name)
    (rest : List (Name × Bool)) (ho : env.Outputs n = true) :
    deliverOutputs env ((n, true) :: rest)
      = Ev.deliver n :: deliverOutputs env rest := by
  simp [deliverOutputs, ho]

lemma deliverOutputs_cons_absent (env : PackEnv) (n : Name)
    (rest : List (Name × Bool)) (ho : env.Outputs n = false) :
    deliverOutputs env ((n, true) :: rest)
      = Ev.logMissingOutput n :: deliverOutputs env rest := by
  simp [deliverOutputs, ho]

lemma deliver_mem_deliverOutputs_iff (env : PackEnv) (ns : List (Name × Bool))
    (m : Name) :
    Ev.deliver m ∈ deliverOutputs env ns ↔ ((m, true) ∈ ns ∧ env.Outputs m = true) := by
  induction ns with
  | nil => simp [deliverOutputs]
  | cons hd rest ih =>
    rcases hd with ⟨n, u⟩
    cases u with
    | false =>
      rw [deliverOutputs_cons_false, ih]
      constructor
      · rintro ⟨hmem, hB⟩
        exact ⟨List.mem_cons_of_mem _ hmem, hB⟩
      · rintro ⟨hmem, hB⟩
        rcases List.mem_cons.mp hmem with heq | hmem2
        · exact absurd (congrArg Prod.snd heq) (by simp)
        · exact ⟨hmem2, hB⟩
    | true =>
      cases ho : env.Outputs n with
      | false =>
        rw [deliverOutputs_cons_absent env n rest ho]
        constructor
        · intro hmem
          rcases List.mem_cons.mp hmem with heq | hmem2
          · exact Ev.noConfusion heq
          · rcases ih.mp hmem2 with ⟨ha, hb⟩
            exact ⟨List.mem_cons_of_mem _ ha, hb⟩
        · rintro ⟨hmem, hB⟩
          rcases List.mem_cons.mp hmem with heq | hmem2
          · have hm : m = n := congrArg Prod.fst heq
            rw [hm, ho] at hB
            exact Bool.noConfusion hB
          · exact List.mem_cons_of_mem _ (ih.mpr ⟨hmem2, hB⟩)
      | true =>
        rw [deliverOutputs_cons_present env n rest ho]
        constructor
        · intro hmem
          rcases List.mem_cons.mp hmem with heq | hmem2
          · have hm : m = n := by injection heq
            subst hm
            exact ⟨List.mem_cons_self _ _, ho⟩
          · rcases ih.mp hmem2 with ⟨ha, hb⟩
            exact ⟨List.mem_cons_of_mem _ ha, hb⟩
        · rintro ⟨hmem, hB⟩
          rcases List.mem_cons.mp hmem with heq | hmem2
          · have hm : m = n := congrArg Prod.fst heq
            subst hm
            exact List.mem_cons_self _ _
          · exact List.mem_cons_of_mem _ (ih.mpr ⟨hmem2, hB⟩)

lemma logMissing_mem_deliverOutputs_iff (env : PackEnv) (ns : List (Name × Bool))
    (m : Name) :
    Ev.logMissingOutput m ∈ deliverOutputs env ns
      ↔ ((m, true) ∈ ns ∧ env.Outputs m = false) := by
  induction ns with
  | nil => simp [deliverOutputs]
  | cons hd rest ih =>
    rcases hd with ⟨n, u⟩
    cases u with
    | false =>
      rw [deliverOutputs_cons_false, ih]
      constructor
      · rintro ⟨hmem, hB⟩
        exact ⟨List.mem_cons_of_mem _ hmem, hB⟩
      · rintro ⟨hmem, hB⟩
        rcases List.mem_cons.mp hmem with heq | hmem2
        · exact absurd (congrArg Prod.snd heq) (by simp)
        · exact ⟨hmem2, hB⟩
    | true =>
      cases ho : env.Outputs n with
      | true =>
        rw [deliverOutputs_cons_present env n rest ho]
        constructor
        · intro hmem
          rcases List.mem_cons.mp hmem with heq | hmem2
          · exact Ev.noConfusion heq
          · rcases ih.mp hmem2 with ⟨ha, hb⟩
            exact ⟨List.mem_cons_of_mem _ ha, hb⟩
        · rintro ⟨hmem, hB⟩
          rcases List.mem_cons.mp hmem with heq | hmem2
          · have hm : m = n := congrArg Prod.fst heq
            rw [hm, ho] at hB
            exact Bool.noConfusion hB
          · exact List.mem_cons_of_mem _ (ih.mpr ⟨hmem2, hB⟩)
      | false =>
        rw [deliverOutputs_cons_absent env n rest ho]
        constructor
        · intro hmem
          rcases List.mem_cons.mp hmem with heq | hmem2
          · have hm : m = n := by injection heq
            subst hm
            exact ⟨List.mem_cons_self _ _, ho⟩
          · rcases ih.mp hmem2 with ⟨ha, hb⟩
            exact ⟨List.mem_cons_of_mem _ ha, hb⟩
        · rintro ⟨hmem, hB⟩
          rcases List.mem_cons.mp hmem with heq | hmem2
          · have hm : m = n := congrArg Prod.fst heq
            subst hm
            exact List.mem_cons_self _ _
          · exact List.mem_cons_of_mem _ (ih.mpr ⟨hmem2, hB⟩)

/-- Claim C6: in the delivery loop, a selected name whose output instance is
absent is logged and never delivered, every other selected name whose
instance is present is still delivered, and a non-blocked pack always enters
the delivery loop. -/
theorem C6_missing_output_tolerated (env : PackEnv) (ns : List (Name × Bool)) :
    (∀ n, (n, true) ∈ ns → env.Outputs n = false →
      Ev.logMissingOutput n ∈ deliverOutputs env ns
      ∧ Ev.deliver n ∉ deliverOutputs env ns)
    ∧ (∀ m, (m, true) ∈ ns → env.Outputs m = true →
      Ev.deliver m ∈ deliverOutputs env ns)
    ∧ (∀ q : PipelinePack, q.Blocked = false →
      afterFilter env q = (deliverOutputs env q.OutputNames, ExitPath.completed)) := by
  refine ⟨?_, ?_, ?_⟩
  · intro n hmem ho
    refine ⟨(logMissing_mem_deliverOutputs_iff env ns n).mpr ⟨hmem, ho⟩, ?_⟩
    intro hdel
    obtain ⟨-, h2⟩ := (deliver_mem_deliverOutputs_iff env ns n).mp hdel
    rw [ho] at h2
    exact Bool.noConfusion h2
  · intro m hmem ho
    exact (deliver_mem_deliverOutputs_iff env ns m).mpr ⟨hmem, ho⟩
  · intro q hb
    unfold afterFilter
    simp [hb]

/-- Witness for C6: with `"gone"` absent and `"out1"` present, `"out1"` is
still delivered. -/
theorem C6_missing_output_tolerated_witness :
    Ev.deliver "out1" ∈ deliverOutputs envOut [("gone", true), ("out1", true)] :=
  (C6_missing_output_tolerated envOut [("gone", true), ("out1", true)]).2.1 "out1"
    (by simp) rfl

/-- Claim C7: `BroadcastEvent` with a `RELOAD` or `STOP` event invokes the
`Event` handler of every filter or output plugin wrapper whose global
instance is non-nil, whatever the outcome of the topic publish; a publish
failure is only logged. -/
theorem C7_broadcast_completeness (config : PipelineConfig) (eventType : String)
    (postErr : Bool) (n : Name) (w : PluginWrapper)
    (_hev : eventType = RELOAD ∨ eventType = STOP)
    (hmem : (n, w) ∈ config.Filters ∨ (n, w) ∈ config.Outputs)
    (hg : w.global.isSome = true) :
    BEv.event n eventType ∈ BroadcastEvent config eventType postErr
    ∧ (postErr = true → BEv.logPostError ∈ BroadcastEvent config eventType postErr) := by
  constructor
  · unfold BroadcastEvent
    rcases hmem with hmem | hmem
    · refine List.mem_append_left _ (List.mem_append_right _ ?_)
      unfold notifyWrappers
      exact List.mem_filterMap.mpr ⟨(n, w), hmem, by simp [hg]⟩
    · refine List.mem_append_right _ ?_
      unfold notifyWrappers
      exact List.mem_filterMap.mpr ⟨(n, w), hmem, by simp [hg]⟩
  · intro hp
    unfold BroadcastEvent
    rw [hp]
    simp

/-- Witness for C7: the filter wrapper `"fw"` with a global instance is
notified of `RELOAD` even when the topic publish fails. -/
theorem C7_broadcast_completeness_witness :
    BEv.event "fw" RELOAD ∈ BroadcastEvent cfgBroadcast RELOAD true :=
  (C7_broadcast_completeness cfgBroadcast RELOAD true "fw" wrapGlobal
    (Or.inl rfl) (Or.inl (by simp [cfgBroadcast])) rfl).1

/-- Counterexample for C8: run one cycle in which the decoder succeeds (and
fills the message).  After the deferred reset-and-release, `Decoded` is
false but the message field still holds the decoded value, so the claimed
biconditional fails at the after-reset point of the lifecycle. -/
theorem C8_counterexample :
    ¬ (((pipeline cfgNoChains envDec (NewPipelinePack cfgNoChains)).1.Decoded = true)
        ↔ ((pipeline cfgNoChains envDec
              (NewPipelinePack cfgNoChains)).1.Message.isSome = true)) := by
  decide

/-- Claim C8 as amended: after construction `Decoded` is false and the
message is empty; a successful decode step sets `Decoded` with the message
holding the decoder's value; `Zero` clears `Decoded` but leaves the message
field untouched, so after reset-and-release the flag is false while the
message may still hold the previous cycle's value. -/
theorem C8_decoded_flag_amended (config : PipelineConfig) :
    ((NewPipelinePack config).Decoded = false
      ∧ (NewPipelinePack config).Message = none)
    ∧ (∀ (env : PackEnv) (p : PipelinePack) (d : Decoder) (q : PipelinePack) (v : Nat),
        p.Decoded = false → env.Decoders p.Decoder = some d → d p = (q, false) →
        q.Message = some v →
        decodeStage env p = ({ q with Decoded := true }, [], none)
        ∧ ({ q with Decoded := true } : PipelinePack).Decoded = true
        ∧ ({ q with Decoded := true } : PipelinePack).Message = some v)
    ∧ (∀ p : PipelinePack,
        (p.Zero config).Decoded = false ∧ (p.Zero config).Message = p.Message) := by
  refine ⟨⟨rfl, rfl⟩, ?_, ?_⟩
  · intro env p d q v hdec hd hdp hqm
    refine ⟨?_, rfl, hqm⟩
    simp [decodeStage, hdec, hd, hdp]
  · intro p
    exact ⟨rfl, rfl⟩

/-- Witness for the amended C8: a concrete successful decode step. -/
theorem C8_decoded_flag_amended_witness :
    decodeStage envDec (NewPipelinePack cfgNoChains)
      = ({ (decSet7 (NewPipelinePack cfgNoChains)).1 with Decoded := true }, [], none) :=
  ((C8_decoded_flag_amended cfgNoChains).2.1 envDec (NewPipelinePack cfgNoChains)
    decSet7 (decSet7 (NewPipelinePack cfgNoChains)).1 7 rfl rfl rfl rfl).1

lemma runPoolFrom_invariant (config : PipelineConfig) (ops : List PoolOp) :
    ∀ (s : Nat × Nat) (i o : Nat), s.1 + s.2 = config.PoolSize →
      runPoolFrom config s ops = some (i, o) → i + o = config.PoolSize := by
  induction ops with
  | nil =>
    intro s i o hs h
    simp only [runPoolFrom, Option.some.injEq] at h
    subst h
    simpa using hs
  | cons op rest ih =>
    intro s i o hs h
    rcases s with ⟨s1, s2⟩
    cases op with
    | acquire =>
      by_cases h1 : 0 < s1
      · simp only [runPoolFrom, poolStep, h1, ite_true] at h
        exact ih (s1 - 1, s2 + 1) i o (by simp at hs ⊢; omega) h
      · simp [runPoolFrom, poolStep, h1] at h
    | release =>
      by_cases h1 : 0 < s2 ∧ s1 < poolCapacity config
      · simp only [runPoolFrom, poolStep, h1, ite_true] at h
        exact ih (s1 + 1, s2 - 1) i o (by simp at hs ⊢; omega) h
      · simp [runPoolFrom, poolStep, h1] at h

/-- Claim C9: the pool is pre-filled with `PoolSize` units; along every
executable sequence of acquire/release operations the units in the pool and
the outstanding units always sum to `PoolSize` (so at most `PoolSize` units
are outstanding), an acquire at the bound blocks, and after any release an
acquire is enabled again. -/
theorem C9_pool_bound (config : PipelineConfig) (ops : List PoolOp) (i o : Nat)
    (h : runPool config ops = some (i, o)) :
    o ≤ config.PoolSize
    ∧ i + o = config.PoolSize
    ∧ (o = config.PoolSize → poolStep config (i, o) PoolOp.acquire = none)
    ∧ (∀ i' o', poolStep config (i, o) PoolOp.release = some (i', o') →
        poolStep config (i', o') PoolOp.acquire ≠ none)
    ∧ runPool config [] = some (config.PoolSize, 0) := by
  have hinv : i + o = config.PoolSize :=
    runPoolFrom_invariant config ops (initPool config) i o (by simp [initPool]) h
  refine ⟨by omega, hinv, ?_, ?_, rfl⟩
  · intro ho
    have hi : i = 0 := by omega
    subst hi
    simp [poolStep]
  · intro i' o' hr
    by_cases hc : 0 < o ∧ i < poolCapacity config
    · simp only [poolStep, hc, and_self, ite_true, Option.some.injEq,
        Prod.mk.injEq] at hr
      rw [← hr.1]
      simp [poolStep]
    · simp [poolStep, hc] at hr

/-- Witness for C9: with `PoolSize = 1`, one acquire leaves the pool empty
and one unit outstanding. -/
theorem C9_pool_bound_witness : 1 ≤ cfgNoChains.PoolSize :=
  (C9_pool_bound cfgNoChains [PoolOp.acquire] 0 1 rfl).1

/-- Claim C10: with the default chain naming a filter absent from the pack's
filter map, the cycle panics on the nil filter instance: the trace shows the
`FilterMsg` call on the absent instance and no log-and-skip event, while the
decoder and output lookups of the same embedding are guarded (they log and
abort or log and continue). -/
theorem C10_unguarded_filter_lookup :
    (pipelineBody cfgMissingFilter envMissingFilter
        (NewPipelinePack cfgMissingFilter)).2.2 = ExitPath.panicked
    ∧ (pipelineBody cfgMissingFilter envMissingFilter
        (NewPipelinePack cfgMissingFilter)).2.1 = [Ev.filterPanic "missing"]
    ∧ decodeStage envMissingFilter
        { NewPipelinePack cfgMissingFilter with Decoder := "nodec" }
      = ({ NewPipelinePack cfgMissingFilter with Decoder := "nodec" },
         [Ev.logMissingDecoder "nodec"], some ExitPath.missingDecoder)
    ∧ deliverOutputs envMissingFilter [("absent", true)]
      = [Ev.logMissingOutput "absent"] := by
  refine ⟨?_, ?_, ?_, ?_⟩ <;> decide

end Heka
